import Mathlib

/-!
Verification of the Samsung LHB55ECH display adapter (`samsung_display_adapter.py`)
against its natural-language specification.

The Python source is shallowly embedded below: bytes become `List Nat`
(each entry a byte value), machine arithmetic is `Nat` with explicit `% 256`,
and Python operations that can raise are embedded as `Option`-valued
functions where `none` models an uncaught exception.
-/

set_option maxRecDepth 8000

namespace SamsungMDC

/-! ## Frame codec (`_create_mdc_packet` / `_parse_mdc_response`) -/

/-- Embedding of `SamsungLHB55ECHAdapter._create_mdc_packet`.

Python builds `struct.pack('BBBB', header, cmd, display_id, data_length)
++ data ++ struct.pack('B', checksum)` with
`checksum = (header + cmd + display_id + data_length + sum(data)) & 0xFF`.
`struct.pack` with format `B` raises `struct.error` when a value is outside
`0..255`; `none` models that uncaught exception.  The checksum is already
reduced `% 256`, and the header is the literal `0xAA`, so only the command
byte, the display id and `len(data)` can be out of range. -/
def createMDCPacket (cmdVal displayId : Nat) (data : List Nat) : Option (List Nat) :=
  let dataLength := data.length
  let checksum := (0xAA + cmdVal + displayId + dataLength + data.sum) % 256
  if cmdVal ≤ 255 ∧ displayId ≤ 255 ∧ dataLength ≤ 255 then
    some ([0xAA, cmdVal, displayId, dataLength] ++ data ++ [checksum])
  else none

/-- Outcomes of `_parse_mdc_response`: the four error dictionaries and the
success dictionary (which carries the command byte and the payload slice). -/
inductive ParseResult where
  | tooShort
  | invalidHeader
  | idMismatch
  | checksumMismatch
  | ok (command : Nat) (data : List Nat)
  deriving DecidableEq

/-- Embedding of `SamsungLHB55ECHAdapter._parse_mdc_response`.

Mirrors the Python control flow: a length-4 guard, `struct.unpack` of the
first four bytes, header and display-id checks, the payload slice
`response[4:4+data_length]` (Python slicing clamps, hence `List.take`),
the stored checksum `response[4+data_length] if len(response) > 4+data_length
else 0`, and the checksum comparison.  The indexing on the checksum byte is
the only partially defined operation; `none` would model an uncaught
exception reaching the function's `except` clause. -/
def parseMDCResponse (resp : List Nat) (displayId : Nat) : Option ParseResult :=
  match resp with
  | b0 :: b1 :: b2 :: b3 :: rest =>
    if b0 ≠ 0xAA then some ParseResult.invalidHeader
    else if b2 ≠ displayId then some ParseResult.idMismatch
    else
      let data := rest.take b3
      match (if b3 < rest.length then rest.get? b3 else some 0) with
      | some checksum =>
        if checksum ≠ (b0 + b1 + b2 + b3 + data.sum) % 256 then
          some ParseResult.checksumMismatch
        else some (ParseResult.ok b1 data)
      | none => none
  | _ => some ParseResult.tooShort

/-- Key codec lemma: parsing a structurally complete frame whose last byte is
`c` succeeds exactly when `c` equals the recomputed checksum, and on success
returns the frame's command byte and payload. -/
theorem parse_frame (cmdVal id c : Nat) (payload : List Nat) :
    parseMDCResponse ([0xAA, cmdVal, id, payload.length] ++ payload ++ [c]) id =
      (if c = (0xAA + cmdVal + id + payload.length + payload.sum) % 256 then
        some (ParseResult.ok cmdVal payload)
      else some ParseResult.checksumMismatch) := by
  have hshape : ([0xAA, cmdVal, id, payload.length] ++ payload ++ [c]) =
      0xAA :: cmdVal :: id :: payload.length :: (payload ++ [c]) := by simp
  rw [hshape]
  have hlen : payload.length < (payload ++ [c]).length := by
    simp
  have hget : (payload ++ [c]).get? payload.length = some c := by
    rw [List.get?_append_right (Nat.le_refl _)]
    simp
  have htake : (payload ++ [c]).take payload.length = payload := List.take_left _ _
  simp only [parseMDCResponse, htake, if_pos hlen, hget]
  by_cases hc : c = (0xAA + cmdVal + id + payload.length + payload.sum) % 256
  · simp [hc]
  · simp [hc]

/-- Claim C1: for every payload of length 0..255 (byte values) and every valid
command code, parsing the bytes produced by `_create_mdc_packet` with the
encoding adapter's display id succeeds and returns the original command and
payload (round-trip of the frame codec). -/
theorem c1_encode_decode_roundtrip (cmdVal displayId : Nat) (payload : List Nat)
    (hcmd : cmdVal ≤ 255) (hid : displayId ≤ 255) (hlen : payload.length ≤ 255)
    (_hbytes : ∀ b ∈ payload, b ≤ 255) :
    ∃ frame, createMDCPacket cmdVal displayId payload = some frame ∧
      parseMDCResponse frame displayId = some (ParseResult.ok cmdVal payload) := by
  refine ⟨[0xAA, cmdVal, displayId, payload.length] ++ payload ++
      [(0xAA + cmdVal + displayId + payload.length + payload.sum) % 256], ?_, ?_⟩
  · unfold createMDCPacket
    rw [if_pos ⟨hcmd, hid, hlen⟩]
  · rw [parse_frame]
    simp

/-- Witness for C1 at a concrete command, display id and payload. -/
theorem c1_witness :
    ∃ frame, createMDCPacket 0x11 1 [0x01, 0xFF] = some frame ∧
      parseMDCResponse frame 1 = some (ParseResult.ok 0x11 [0x01, 0xFF]) :=
  c1_encode_decode_roundtrip 0x11 1 [0x01, 0xFF] (by decide) (by decide) (by decide)
    (by decide)

/-- Claim C10: decode is a total function.  Every byte string (empty,
truncated, garbage) produces a structured result: no partial operation inside
`_parse_mdc_response` can fail, so the surrounding `except` clause (the
`'Parse error'` dictionary, modelled by `none`) is unreachable. -/
theorem c10_parse_total (resp : List Nat) (displayId : Nat) :
    (parseMDCResponse resp displayId).isSome = true := by
  rcases resp with _ | ⟨b0, _ | ⟨b1, _ | ⟨b2, _ | ⟨b3, rest⟩⟩⟩⟩ <;>
    simp only [parseMDCResponse, Option.isSome_some]
  by_cases h0 : b0 ≠ 0xAA
  · simp [h0]
  · by_cases h2 : b2 ≠ displayId
    · simp [h0, h2]
    · simp only [h0, h2, if_false, ite_not]
      by_cases hg : b3 < rest.length
      · have hcs := List.get?_eq_get hg
        simp only [if_pos hg, hcs]
        split <;> simp
      · simp only [if_neg hg]
        split <;> simp

/-- Counterexample for claim C2 as stated: the code has no `Malformed` error.
On the 4-byte input `[0xAA, 0x51, 0x00, 0x05]` the declared payload length 5
exceeds the 0 available bytes, yet decode with expected id 0 SUCCEEDS with an
empty payload (the slice truncates and the missing checksum byte is read as 0,
which happens to match).  On `[0xAA, 0x11, 0x00, 0x05]` the same situation
yields `checksumMismatch`, not a `Malformed` error. -/
theorem c2_counterexample :
    parseMDCResponse [0xAA, 0x51, 0x00, 0x05] 0 = some (ParseResult.ok 0x51 []) ∧
      parseMDCResponse [0xAA, 0x11, 0x00, 0x05] 0 = some ParseResult.checksumMismatch := by
  constructor <;> rfl

/-- Claim C2 (amended): decode fails with `tooShort` on fewer than 4 bytes,
`invalidHeader` when the first byte is not `0xAA`, `idMismatch` when the
frame's device id differs from the expected one, `checksumMismatch` when the
stored checksum differs from the recomputed one (in particular after
overwriting the checksum byte of a valid frame with any other value), and on a
complete well-formed frame succeeds with the original command and payload.
There is no `Malformed` error: when the declared payload length exceeds the
available bytes, the payload is silently truncated to the bytes present and
the stored checksum is taken to be 0, so decode returns `checksumMismatch`
unless the recomputed checksum happens to be 0, in which case it succeeds with
the truncated payload. -/
theorem c2_amended :
    (∀ resp : List Nat, ∀ displayId : Nat, resp.length < 4 →
      parseMDCResponse resp displayId = some ParseResult.tooShort) ∧
    (∀ b0 b1 b2 b3 displayId : Nat, ∀ rest : List Nat, b0 ≠ 0xAA →
      parseMDCResponse (b0 :: b1 :: b2 :: b3 :: rest) displayId =
        some ParseResult.invalidHeader) ∧
    (∀ b1 b2 b3 displayId : Nat, ∀ rest : List Nat, b2 ≠ displayId →
      parseMDCResponse (0xAA :: b1 :: b2 :: b3 :: rest) displayId =
        some ParseResult.idMismatch) ∧
    (∀ cmdVal displayId c : Nat, ∀ payload : List Nat,
      c ≠ (0xAA + cmdVal + displayId + payload.length + payload.sum) % 256 →
      parseMDCResponse ([0xAA, cmdVal, displayId, payload.length] ++ payload ++ [c])
        displayId = some ParseResult.checksumMismatch) ∧
    (∀ cmdVal displayId : Nat, ∀ payload : List Nat,
      parseMDCResponse ([0xAA, cmdVal, displayId, payload.length] ++ payload ++
          [(0xAA + cmdVal + displayId + payload.length + payload.sum) % 256])
        displayId = some (ParseResult.ok cmdVal payload)) ∧
    (∀ b1 b3 displayId : Nat, ∀ rest : List Nat, rest.length ≤ b3 →
      parseMDCResponse (0xAA :: b1 :: displayId :: b3 :: rest) displayId =
        (if (0xAA + b1 + displayId + b3 + (rest.take b3).sum) % 256 = 0 then
          some (ParseResult.ok b1 (rest.take b3))
        else some ParseResult.checksumMismatch)) := by
  refine ⟨?_, ?_, ?_, ?_, ?_, ?_⟩
  · intro resp displayId h
    rcases resp with _ | ⟨a, _ | ⟨b, _ | ⟨c, _ | ⟨e, t⟩⟩⟩⟩
    · rfl
    · rfl
    · rfl
    · rfl
    · simp at h
      omega
  · intro b0 b1 b2 b3 displayId rest h0
    simp [parseMDCResponse, h0]
  · intro b1 b2 b3 displayId rest h2
    simp [parseMDCResponse, h2]
  · intro cmdVal displayId c payload hc
    rw [parse_frame, if_neg hc]
  · intro cmdVal displayId payload
    rw [parse_frame]
    simp
  · intro b1 b3 displayId rest hlen
    have hg : ¬b3 < rest.length := by omega
    simp only [parseMDCResponse, if_neg hg, ne_eq, not_true_eq_false, if_false, ite_not]
    by_cases h0 : (0xAA + b1 + displayId + b3 + (rest.take b3).sum) % 256 = 0
    · simp [h0]
    · simp only [h0, if_false]
      rw [if_neg]
      omega

/-- Witness for C2 (amended) at concrete inputs: a 1-byte input is too short,
a bad header is rejected, a frame for device 1 decoded as device 2 gives an id
mismatch, flipping the checksum of a valid frame gives a checksum mismatch,
and a truncated declared length falls into the checksum branch. -/
theorem c2_witness :
    parseMDCResponse [0x07] 3 = some ParseResult.tooShort ∧
      parseMDCResponse [0x55, 0x11, 1, 0] 1 = some ParseResult.invalidHeader ∧
      parseMDCResponse [0xAA, 0x11, 1, 0] 2 = some ParseResult.idMismatch ∧
      parseMDCResponse ([0xAA, 0x11, 1, 1] ++ [5] ++ [0x00]) 1 =
        some ParseResult.checksumMismatch ∧
      parseMDCResponse (0xAA :: 0x11 :: 1 :: 9 :: [5]) 1 =
        some ParseResult.checksumMismatch :=
  ⟨c2_amended.1 [0x07] 3 (by decide),
   c2_amended.2.1 0x55 0x11 1 0 1 [] (by decide),
   c2_amended.2.2.1 0x11 1 0 2 [] (by decide),
   by
     have h := c2_amended.2.2.2.1 0x11 1 0x00 [5] (by decide)
     simpa using h,
   by
     have h := c2_amended.2.2.2.2.2 0x11 9 1 [5] (by decide)
     simpa using h⟩

/-! ## Device session (`send_command`)

The transport is external, so one `AttemptSpec` per loop iteration records
what the network does during that attempt: whether `connect()` (when invoked)
returns `True`, and what happens after the session is connected. -/

/-- Mutable session fields touched by `send_command`:
`self.connected` and `self.error_count`.
(`last_response_time` is not modelled; no claim mentions it.) -/
structure SessionState where
  connected : Bool
  errorCount : Nat
  deriving DecidableEq

/-- What the transport does after the session is connected in one attempt:
the write raises an I/O exception, the 5-second response read times out, or
the read returns the byte string `resp` (possibly empty). -/
inductive SendOutcome where
  | writeRaise
  | readTimeout
  | readResp (resp : List Nat)
  deriving DecidableEq

/-- Behaviour of the transport during one iteration of the retry loop. -/
structure AttemptSpec where
  connectOk : Bool
  outcome : SendOutcome
  deriving DecidableEq

/-- Results `send_command` can return: the parsed-response dictionary, the
generic `{'success': True, 'message': 'Command sent successfully'}`
dictionary, or `{'success': False, 'error': 'Failed after N attempts'}`. -/
inductive SendResult where
  | okParsed (command : Nat) (data : List Nat)
  | okSent
  | failedAfter (attempts : Nat)
  deriving DecidableEq

/-- Observable scheduling events of the retry loop: the start of a loop
iteration, and the `await asyncio.sleep(1)` inter-retry delay. -/
inductive Ev where
  | attemptStart
  | sleep1
  deriving DecidableEq

/-- Embedding of the retry loop body of `SamsungLHB55ECHAdapter.send_command`.

One list element of `specs` is consumed per loop iteration
(`for attempt in range(self.max_retries)`); the empty list is the exhausted
loop, returning the `'Failed after N attempts'` dictionary.  Faithful control
flow per attempt:
* not connected and `connect()` fails → `continue` (no sleep, state unchanged);
* `_create_mdc_packet` raising `struct.error` (`none`) or the write raising →
  the `except` clause: `connected = False`, `error_count += 1`, and
  `asyncio.sleep(1)` only when `attempt < max_retries - 1`;
* read timeout (with `expect_response`) → `connected = False`, `continue`
  with no sleep and no error-count change;
* a non-empty response that parses successfully → return the parsed result;
* a decode failure or an empty read falls through to the generic success
  return, as does a plain write when `expect_response` is false. -/
def sendLoop (displayId cmdVal : Nat) (data : List Nat) (expectResponse : Bool)
    (maxRetries : Nat) :
    Nat → SessionState → List AttemptSpec → SendResult × List Ev × SessionState
  | _, st, [] => (SendResult.failedAfter maxRetries, [], st)
  | attempt, st, spec :: rest =>
    if st.connected = false ∧ spec.connectOk = false then
      let r := sendLoop displayId cmdVal data expectResponse maxRetries
        (attempt + 1) st rest
      (r.1, Ev.attemptStart :: r.2.1, r.2.2)
    else
      let st1 : SessionState := if st.connected then st else ⟨true, 0⟩
      match createMDCPacket cmdVal displayId data with
      | none =>
        let st2 : SessionState := ⟨false, st1.errorCount + 1⟩
        let sleeps : List Ev := if attempt < maxRetries - 1 then [Ev.sleep1] else []
        let r := sendLoop displayId cmdVal data expectResponse maxRetries
          (attempt + 1) st2 rest
        (r.1, Ev.attemptStart :: (sleeps ++ r.2.1), r.2.2)
      | some _ =>
        match spec.outcome with
        | SendOutcome.writeRaise =>
          let st2 : SessionState := ⟨false, st1.errorCount + 1⟩
          let sleeps : List Ev := if attempt < maxRetries - 1 then [Ev.sleep1] else []
          let r := sendLoop displayId cmdVal data expectResponse maxRetries
            (attempt + 1) st2 rest
          (r.1, Ev.attemptStart :: (sleeps ++ r.2.1), r.2.2)
        | SendOutcome.readTimeout =>
          if expectResponse then
            let r := sendLoop displayId cmdVal data expectResponse maxRetries
              (attempt + 1) ⟨false, st1.errorCount⟩ rest
            (r.1, Ev.attemptStart :: r.2.1, r.2.2)
          else (SendResult.okSent, [Ev.attemptStart], st1)
        | SendOutcome.readResp resp =>
          if expectResponse then
            if resp.isEmpty then (SendResult.okSent, [Ev.attemptStart], st1)
            else
              match parseMDCResponse resp displayId with
              | some (ParseResult.ok c d) =>
                (SendResult.okParsed c d, [Ev.attemptStart], st1)
              | _ => (SendResult.okSent, [Ev.attemptStart], st1)
          else (SendResult.okSent, [Ev.attemptStart], st1)

/-- `send_command` as called on a fresh adapter: `max_retries = 3`
(set in `__init__`), attempt counter starting at 0, initial state
disconnected with `error_count = 0`. -/
def send_command (displayId cmdVal : Nat) (data : List Nat) (expectResponse : Bool)
    (specs : List AttemptSpec) : SendResult × List Ev × SessionState :=
  sendLoop displayId cmdVal data expectResponse 3 0 ⟨false, 0⟩ specs

/-- An attempt on which the transport delivers no decodable response:
`connect()` fails, or the write raises, or the response read times out. -/
def attemptFails (s : AttemptSpec) : Prop :=
  s.connectOk = false ∨ s.outcome = SendOutcome.writeRaise ∨
    s.outcome = SendOutcome.readTimeout

instance (s : AttemptSpec) : Decidable (attemptFails s) := by
  unfold attemptFails
  infer_instance

/-- Number of 1-second sleeps the code performs for a failing non-final
attempt: exactly the except-clause failures (an I/O exception on a connected
session) sleep; failed connects and read timeouts `continue` without delay. -/
def sleepsOf (s : AttemptSpec) : Nat :=
  if s.connectOk = true ∧ s.outcome = SendOutcome.writeRaise then 1 else 0

/-- Counterexample for claim C3 as stated: when the transport always fails at
`connect()`, the loop hits `continue` before the sleep, so the three attempts
run with NO 1-second inter-attempt delay at all (the claim asserts a 1-second
delay between consecutive attempts). -/
theorem c3_counterexample :
    (send_command 1 0x11 [0x01] true
      [⟨false, SendOutcome.writeRaise⟩, ⟨false, SendOutcome.writeRaise⟩,
       ⟨false, SendOutcome.writeRaise⟩]).1 = SendResult.failedAfter 3 ∧
    ((send_command 1 0x11 [0x01] true
      [⟨false, SendOutcome.writeRaise⟩, ⟨false, SendOutcome.writeRaise⟩,
       ⟨false, SendOutcome.writeRaise⟩]).2.1).count Ev.attemptStart = 3 ∧
    ((send_command 1 0x11 [0x01] true
      [⟨false, SendOutcome.writeRaise⟩, ⟨false, SendOutcome.writeRaise⟩,
       ⟨false, SendOutcome.writeRaise⟩]).2.1).count Ev.sleep1 = 0 := by
  decide

/-- Claim C3 (amended): for a session whose transport always fails,
`send_command` returns the structured failure `'Failed after 3 attempts'`
after exactly 3 attempts.  A 1-second delay separates consecutive attempts
only when the attempt failed with an I/O exception on a connected session
(the `except` clause); attempts that fail in `connect()` or time out waiting
for the response `continue` with no delay, and no delay ever follows the
final attempt. -/
theorem c3_amended (displayId cmdVal : Nat) (data : List Nat)
    (hcmd : cmdVal ≤ 255) (hid : displayId ≤ 255) (hlen : data.length ≤ 255)
    (s0 s1 s2 : AttemptSpec)
    (f0 : attemptFails s0) (f1 : attemptFails s1) (f2 : attemptFails s2) :
    (send_command displayId cmdVal data true [s0, s1, s2]).1 =
        SendResult.failedAfter 3 ∧
    ((send_command displayId cmdVal data true [s0, s1, s2]).2.1).count
        Ev.attemptStart = 3 ∧
    ((send_command displayId cmdVal data true [s0, s1, s2]).2.1).count
        Ev.sleep1 = sleepsOf s0 + sleepsOf s1 := by
  have hp : createMDCPacket cmdVal displayId data =
      some ([0xAA, cmdVal, displayId, data.length] ++ data ++
        [(0xAA + cmdVal + displayId + data.length + data.sum) % 256]) := by
    unfold createMDCPacket
    rw [if_pos ⟨hcmd, hid, hlen⟩]
  obtain ⟨co0, oc0⟩ := s0
  obtain ⟨co1, oc1⟩ := s1
  obtain ⟨co2, oc2⟩ := s2
  cases co0 <;> cases co1 <;> cases co2 <;>
    rcases f0 with h0 | h0 | h0 <;> rcases f1 with h1 | h1 | h1 <;>
    rcases f2 with h2 | h2 | h2 <;>
    simp_all [send_command, sendLoop, hp, sleepsOf]

/-- Witness for C3 (amended): first attempt raises on write (one sleep),
second fails to connect (no sleep), third times out on the read (no sleep). -/
theorem c3_witness :
    (send_command 1 0x11 [1] true
      [⟨true, SendOutcome.writeRaise⟩, ⟨false, SendOutcome.writeRaise⟩,
       ⟨true, SendOutcome.readTimeout⟩]).1 = SendResult.failedAfter 3 ∧
    ((send_command 1 0x11 [1] true
      [⟨true, SendOutcome.writeRaise⟩, ⟨false, SendOutcome.writeRaise⟩,
       ⟨true, SendOutcome.readTimeout⟩]).2.1).count Ev.attemptStart = 3 ∧
    ((send_command 1 0x11 [1] true
      [⟨true, SendOutcome.writeRaise⟩, ⟨false, SendOutcome.writeRaise⟩,
       ⟨true, SendOutcome.readTimeout⟩]).2.1).count Ev.sleep1 = 1 := by
  have h := c3_amended 1 0x11 [1] (by decide) (by decide) (by decide)
    ⟨true, SendOutcome.writeRaise⟩ ⟨false, SendOutcome.writeRaise⟩
    ⟨true, SendOutcome.readTimeout⟩ (by decide) (by decide) (by decide)
  simpa [sleepsOf] using h

/-- Claim C4 (code bug): with `expect_response = True`, when a response is
read but fails to decode, the code logs `"Command failed"` and then falls
through to `return {'success': True, 'message': 'Command sent successfully'}`
on that same attempt — it reports success and does not retry.  Here the first
attempt connects and reads the undecodable byte string `[0x00]`, and
`send_command` returns the generic success result after a single attempt,
never touching the two remaining (failing) attempts. -/
theorem c4_decode_failure_reports_success :
    send_command 1 0x2B [] true
      [⟨true, SendOutcome.readResp [0x00]⟩,
       ⟨true, SendOutcome.writeRaise⟩, ⟨true, SendOutcome.writeRaise⟩] =
      (SendResult.okSent, [Ev.attemptStart], ⟨true, 0⟩) := by
  decide

/-- Counterexample for claim C5 as stated: for a 256-byte payload,
`_create_mdc_packet` has no length check at all — `struct.pack('BBBB', ...)`
raises an uncaught `struct.error` (modelled by `none`); no structured
`InvalidPayload` result exists anywhere in the code. -/
theorem c5_counterexample :
    createMDCPacket 0x11 1 (List.replicate 256 0x00) = none := by
  decide

/-- Claim C5 (amended): for every payload longer than 255 bytes, encoding
raises an uncaught `struct.error` instead of returning a structured
`InvalidPayload` failure; when reached through `send_command`, the `except`
clause absorbs the exception on every attempt and the call returns the
generic `'Failed after 3 attempts'` failure regardless of transport
behaviour. -/
theorem c5_amended (cmdVal displayId : Nat) (data : List Nat)
    (hlen : 255 < data.length)
    (expectResponse : Bool) (s0 s1 s2 : AttemptSpec) :
    createMDCPacket cmdVal displayId data = none ∧
    (send_command displayId cmdVal data expectResponse [s0, s1, s2]).1 =
      SendResult.failedAfter 3 := by
  have hp : createMDCPacket cmdVal displayId data = none := by
    unfold createMDCPacket
    rw [if_neg]
    rintro ⟨-, -, h⟩
    omega
  refine ⟨hp, ?_⟩
  obtain ⟨co0, oc0⟩ := s0
  obtain ⟨co1, oc1⟩ := s1
  obtain ⟨co2, oc2⟩ := s2
  cases co0 <;> cases co1 <;> cases co2 <;>
    simp [send_command, sendLoop, hp]

/-- Witness for C5 (amended) at a concrete 256-byte payload. -/
theorem c5_witness :
    createMDCPacket 0x11 1 (List.replicate 256 0x01) = none ∧
    (send_command 1 0x11 (List.replicate 256 0x01) true
      [⟨true, SendOutcome.readResp []⟩, ⟨false, SendOutcome.writeRaise⟩,
       ⟨true, SendOutcome.readTimeout⟩]).1 = SendResult.failedAfter 3 :=
  c5_amended 0x11 1 (List.replicate 256 0x01)
    (by simp) true ⟨true, SendOutcome.readResp []⟩ ⟨false, SendOutcome.writeRaise⟩
    ⟨true, SendOutcome.readTimeout⟩

/-! ## Command facade argument validation (`set_volume`, `set_video_wall_mode`) -/

/-- What a facade method does before (or instead of) touching the network:
either it returns a validation-error dictionary immediately — performing zero
network calls — or it hands a command byte and payload to `send_command`. -/
inductive FacadeAction where
  | validationError (msg : String)
  | send (cmdVal : Nat) (data : List Nat)
  deriving DecidableEq

/-- Embedding of `SamsungLHB55ECHAdapter.set_volume`: `if not 0 <= volume <=
100: return {'success': False, 'error': 'Volume must be between 0-100'}`,
otherwise `send_command(MDCCommand.VOLUME, bytes([volume]))`.  The argument is
an `Int` because Python callers may pass negative values. -/
def set_volume (volume : Int) : FacadeAction :=
  if ¬(0 ≤ volume ∧ volume ≤ 100) then
    FacadeAction.validationError "Volume must be between 0-100"
  else FacadeAction.send 0x12 [volume.toNat]

/-- Embedding of `SamsungLHB55ECHAdapter.set_video_wall_mode`: monitor counts
are validated against `1..15`, positions against the monitor grid, before the
5-byte payload is packed and sent as `MDCCommand.VIDEO_WALL_MODE`. -/
def set_video_wall_mode (enabled : Bool) (hMonitors vMonitors hPosition vPosition : Int) :
    FacadeAction :=
  if ¬(1 ≤ hMonitors ∧ hMonitors ≤ 15) ∨ ¬(1 ≤ vMonitors ∧ vMonitors ≤ 15) then
    FacadeAction.validationError "Monitor count must be 1-15"
  else if ¬(1 ≤ hPosition ∧ hPosition ≤ hMonitors) ∨
      ¬(1 ≤ vPosition ∧ vPosition ≤ vMonitors) then
    FacadeAction.validationError "Position must be within monitor grid"
  else
    FacadeAction.send 0x84
      [(if enabled then 1 else 0), hMonitors.toNat, vMonitors.toNat,
       hPosition.toNat, vPosition.toNat]

/-- Claim C6: argument validation short-circuits before any I/O.
`set_volume` rejects any volume outside `0..100` with the out-of-range error
and no network call, while 0 and 100 pass validation and are sent; and
`set_video_wall_mode` rejects any monitor count outside `1..15` or any
position outside the monitor grid with an out-of-range error and no network
call. -/
theorem c6_validation_short_circuit :
    (∀ v : Int, ¬(0 ≤ v ∧ v ≤ 100) →
      set_volume v = FacadeAction.validationError "Volume must be between 0-100") ∧
    set_volume 0 = FacadeAction.send 0x12 [0] ∧
    set_volume 100 = FacadeAction.send 0x12 [100] ∧
    (∀ e : Bool, ∀ hM vM hP vP : Int,
      (¬(1 ≤ hM ∧ hM ≤ 15) ∨ ¬(1 ≤ vM ∧ vM ≤ 15) ∨
        ¬(1 ≤ hP ∧ hP ≤ hM) ∨ ¬(1 ≤ vP ∧ vP ≤ vM)) →
      ∃ msg, set_video_wall_mode e hM vM hP vP = FacadeAction.validationError msg) ∧
    (∀ e : Bool, ∀ hM vM hP vP : Int,
      (1 ≤ hM ∧ hM ≤ 15) → (1 ≤ vM ∧ vM ≤ 15) →
      (1 ≤ hP ∧ hP ≤ hM) → (1 ≤ vP ∧ vP ≤ vM) →
      set_video_wall_mode e hM vM hP vP = FacadeAction.send 0x84
        [(if e then 1 else 0), hM.toNat, vM.toNat, hP.toNat, vP.toNat]) := by
  refine ⟨?_, rfl, rfl, ?_, ?_⟩
  · intro v hv
    simp [set_volume, hv]
  · intro e hM vM hP vP hbad
    unfold set_video_wall_mode
    rcases hbad with h | h | h | h
    · exact ⟨_, by rw [if_pos (Or.inl h)]⟩
    · exact ⟨_, by rw [if_pos (Or.inr h)]⟩
    · by_cases hm : ¬(1 ≤ hM ∧ hM ≤ 15) ∨ ¬(1 ≤ vM ∧ vM ≤ 15)
      · exact ⟨_, by rw [if_pos hm]⟩
      · exact ⟨_, by rw [if_neg hm, if_pos (Or.inl h)]⟩
    · by_cases hm : ¬(1 ≤ hM ∧ hM ≤ 15) ∨ ¬(1 ≤ vM ∧ vM ≤ 15)
      · exact ⟨_, by rw [if_pos hm]⟩
      · exact ⟨_, by rw [if_neg hm, if_pos (Or.inr h)]⟩
  · intro e hM vM hP vP h1 h2 h3 h4
    unfold set_video_wall_mode
    rw [if_neg (by push_neg; exact ⟨h1, h2⟩), if_neg (by push_neg; exact ⟨h3, h4⟩)]

/-- Witness for C6: `set_volume (-1)` and `set_volume 101` are rejected with
zero network calls, the boundary values pass, and an out-of-grid position is
rejected. -/
theorem c6_witness :
    set_volume (-1) = FacadeAction.validationError "Volume must be between 0-100" ∧
    set_volume 101 = FacadeAction.validationError "Volume must be between 0-100" ∧
    set_volume 0 = FacadeAction.send 0x12 [0] ∧
    set_volume 100 = FacadeAction.send 0x12 [100] ∧
    (∃ msg, set_video_wall_mode true 2 2 3 1 = FacadeAction.validationError msg) :=
  ⟨c6_validation_short_circuit.1 (-1) (by omega),
   c6_validation_short_circuit.1 101 (by omega),
   c6_validation_short_circuit.2.1,
   c6_validation_short_circuit.2.2.1,
   c6_validation_short_circuit.2.2.2.1 true 2 2 3 1 (by omega)⟩

/-! ## Alert engine (`MonitoringDashboard._add_alert`) -/

/-- One stored alert.  The `id` field
(`f"{level}_{hash(message)}_{int(time.time())}"`) is not modelled: it is
derived data inspected by no claim and no other code path. -/
structure Alert where
  level : String
  message : String
  timestamp : Int
  deriving DecidableEq

/-- Embedding of `MonitoringDashboard._add_alert`.  `now` stands for the
(single) value of `time.time()` during the call.  An alert with the same
message newer than `now - 300` suppresses the insertion; otherwise the alert
is appended and, when the store exceeds 100 entries, only the last 100 are
kept (`self.alerts = self.alerts[-100:]`). -/
def addAlert (alerts : List Alert) (now : Int) (level message : String) : List Alert :=
  let cutoff := now - 300
  let existing := alerts.filter (fun a => decide (cutoff < a.timestamp ∧ a.message = message))
  if existing.isEmpty then
    let appended := alerts ++ [⟨level, message, now⟩]
    if 100 < appended.length then appended.drop (appended.length - 100) else appended
  else alerts

/-- One `_add_alert` invocation: its `time.time()` value, level and message. -/
structure AlertEvent where
  time : Int
  level : String
  message : String
  deriving DecidableEq

/-- The alert constructed for an event (level, message, timestamp fields). -/
def mkAlert (e : AlertEvent) : Alert := ⟨e.level, e.message, e.time⟩

/-- The alert store after a sequence of `_add_alert` calls, starting from the
empty store of a fresh `MonitoringDashboard`. -/
def runAlerts (evs : List AlertEvent) : List Alert :=
  evs.foldl (fun l e => addAlert l e.time e.level e.message) []

/-- Dedup separation: in list order, any later alert with the same message is
at least 300 seconds newer. -/
def DedupSeparated (l : List Alert) : Prop :=
  l.Pairwise (fun a b => a.message = b.message → a.timestamp + 300 ≤ b.timestamp)

/-- `_add_alert` preserves the dedup separation invariant. -/
theorem addAlert_dedupSeparated (l : List Alert) (now : Int) (level message : String)
    (h : DedupSeparated l) : DedupSeparated (addAlert l now level message) := by
  unfold addAlert
  by_cases hex :
      (l.filter (fun a => decide (now - 300 < a.timestamp ∧ a.message = message))).isEmpty
  · simp only [hex, if_true]
    have happ : DedupSeparated (l ++ [⟨level, message, now⟩]) := by
      unfold DedupSeparated
      rw [List.pairwise_append]
      refine ⟨h, List.pairwise_singleton _ _, ?_⟩
      intro a ha b hb hmsg
      simp only [List.mem_singleton] at hb
      subst hb
      rw [List.isEmpty_iff_eq_nil, List.filter_eq_nil] at hex
      have := hex a ha
      simp only [decide_eq_true_eq, not_and] at this
      have hle : ¬(now - 300 < a.timestamp) := fun hlt => (this hlt) hmsg
      show a.timestamp + 300 ≤ now
      omega
    split
    · exact List.Pairwise.sublist (List.drop_sublist _ _) happ
    · exact happ
  · simp only [hex, if_false]
    exact h

/-- Claim C7: after any sequence of `_add_alert` calls, no two stored alerts
with identical message lie within 300 seconds of each other (any later
same-message alert is at least 300 seconds newer); concretely, two identical
calls within 300 seconds store exactly one alert and a third identical call
past the window stores a second one. -/
theorem c7_alert_dedup (evs : List AlertEvent) :
    DedupSeparated (runAlerts evs) ∧
    (runAlerts [⟨0, "warning", "X"⟩, ⟨100, "warning", "X"⟩]).length = 1 ∧
    (runAlerts [⟨0, "warning", "X"⟩, ⟨100, "warning", "X"⟩,
      ⟨301, "warning", "X"⟩]).length = 2 := by
  refine ⟨?_, by decide, by decide⟩
  have main : ∀ (l : List Alert), DedupSeparated l →
      DedupSeparated (evs.foldl (fun l e => addAlert l e.time e.level e.message) l) := by
    induction evs with
    | nil => intro l hl; exact hl
    | cons e t ih =>
      intro l hl
      exact ih _ (addAlert_dedupSeparated l e.time e.level e.message hl)
  exact main [] (List.Pairwise.nil)

/-- Witness for C7 at a concrete call sequence. -/
theorem c7_witness :
    DedupSeparated (runAlerts [⟨0, "warning", "X"⟩, ⟨100, "warning", "X"⟩,
      ⟨301, "warning", "X"⟩]) ∧
    (runAlerts [⟨0, "warning", "X"⟩, ⟨100, "warning", "X"⟩]).length = 1 ∧
    (runAlerts [⟨0, "warning", "X"⟩, ⟨100, "warning", "X"⟩,
      ⟨301, "warning", "X"⟩]).length = 2 :=
  c7_alert_dedup [⟨0, "warning", "X"⟩, ⟨100, "warning", "X"⟩, ⟨301, "warning", "X"⟩]

/-- The last `n` entries of a list, in order — Python's `l[-n:]`. -/
def lastN (n : Nat) (l : List Alert) : List Alert := l.drop (l.length - n)

/-- `_add_alert` never lets the store exceed 100 entries. -/
theorem addAlert_length_le (l : List Alert) (now : Int) (level message : String)
    (h : l.length ≤ 100) : (addAlert l now level message).length ≤ 100 := by
  unfold addAlert
  by_cases hex :
      (l.filter (fun a => decide (now - 300 < a.timestamp ∧ a.message = message))).isEmpty
  · simp only [hex, if_true]
    by_cases hlen : 100 < (l ++ [(⟨level, message, now⟩ : Alert)]).length
    · rw [if_pos hlen, List.length_drop]
      omega
    · rw [if_neg hlen]
      simp only [List.length_append, List.length_cons, List.length_nil] at hlen ⊢
      omega
  · simp only [hex, if_false]
    exact h

/-- Cap arithmetic: appending one entry to the last-100 suffix of `l` and then
recapping yields the last-100 suffix of `l ++ [a]`. -/
theorem cap_lastN (l : List Alert) (a : Alert) :
    (if 100 < (lastN 100 l ++ [a]).length then
      (lastN 100 l ++ [a]).drop ((lastN 100 l ++ [a]).length - 100)
    else lastN 100 l ++ [a]) = lastN 100 (l ++ [a]) := by
  unfold lastN
  by_cases hL : l.length ≤ 99
  · have h1 : l.length - 100 = 0 := by omega
    have h2 : (l ++ [a]).length - 100 = 0 := by
      simp only [List.length_append, List.length_cons, List.length_nil]
      omega
    rw [h1, h2, List.drop_zero, List.drop_zero, if_neg]
    simp only [List.length_append, List.length_cons, List.length_nil]
    omega
  · have hlen1 : (l.drop (l.length - 100)).length = 100 := by
      rw [List.length_drop]
      omega
    have hgt : 100 < (l.drop (l.length - 100) ++ [a]).length := by
      simp only [List.length_append, hlen1, List.length_cons, List.length_nil]
      omega
    rw [if_pos hgt]
    have h2 : (l.drop (l.length - 100) ++ [a]).length - 100 = 1 := by
      simp only [List.length_append, hlen1, List.length_cons, List.length_nil]
    rw [h2, List.drop_append_of_le_length (by rw [hlen1]; omega),
      List.drop_drop,
      List.drop_append_of_le_length (show (l ++ [a]).length - 100 ≤ l.length from by
        simp only [List.length_append, List.length_cons, List.length_nil]
        omega)]
    congr 2
    simp only [List.length_append, List.length_cons, List.length_nil]
    omega

/-- When every message is fresh (never seen before), the store after a batch
of `_add_alert` calls is exactly the last-100 suffix, in order, of all the
alerts ever inserted.  `bs` are the calls already performed. -/
theorem runAlerts_lastN : ∀ (evs bs : List AlertEvent),
    (((bs ++ evs).map (fun e => e.message)).Nodup) →
    evs.foldl (fun l e => addAlert l e.time e.level e.message)
        (lastN 100 (bs.map mkAlert)) =
      lastN 100 ((bs ++ evs).map mkAlert)
  | [], bs, _ => by simp
  | e :: t, bs, hnd => by
    have hnotin : ∀ x ∈ bs, x.message ≠ e.message := by
      intro x hx hxe
      rw [List.map_append, List.nodup_append] at hnd
      exact hnd.2.2 (List.mem_map_of_mem _ hx) (by simp [hxe])
    have hstep : addAlert (lastN 100 (bs.map mkAlert)) e.time e.level e.message =
        lastN 100 ((bs ++ [e]).map mkAlert) := by
      have hfe : ((lastN 100 (bs.map mkAlert)).filter
          (fun a => decide (e.time - 300 < a.timestamp ∧ a.message = e.message))).isEmpty := by
        rw [List.isEmpty_iff, List.filter_eq_nil_iff]
        intro a ha
        have hmem : a ∈ bs.map mkAlert := (List.drop_sublist _ _).subset ha
        obtain ⟨b, hb, rfl⟩ := List.mem_map.1 hmem
        simp only [decide_eq_true_eq, not_and]
        intro _
        exact hnotin b hb
      unfold addAlert
      rw [if_pos hfe]
      have := cap_lastN (bs.map mkAlert) (mkAlert e)
      rw [List.map_append]
      exact this
    rw [List.foldl_cons, hstep,
      show bs ++ e :: t = (bs ++ [e]) ++ t by simp]
    exact runAlerts_lastN t (bs ++ [e]) (by simpa using hnd)

/-- Claim C8: the alert store never exceeds 100 entries; when insertions are
all distinct (dedup never fires) the store is exactly the most recent 100
insertions in order — eviction is FIFO by age, never by level (the level
plays no role in `addAlert`'s eviction) — so 150 distinct alerts leave
exactly 100 stored entries. -/
theorem c8_alert_cap_fifo (evs : List AlertEvent) :
    (runAlerts evs).length ≤ 100 ∧
    ((evs.map (fun e => e.message)).Nodup →
      runAlerts evs = lastN 100 (evs.map mkAlert)) ∧
    ((evs.map (fun e => e.message)).Nodup → evs.length = 150 →
      (runAlerts evs).length = 100) := by
  have hfold : ∀ (es : List AlertEvent) (l : List Alert), l.length ≤ 100 →
      (es.foldl (fun l e => addAlert l e.time e.level e.message) l).length ≤ 100 := by
    intro es
    induction es with
    | nil => intro l h; exact h
    | cons e t ih =>
      intro l h
      exact ih _ (addAlert_length_le l e.time e.level e.message h)
  have heqrun : ∀ hnd : ((evs.map (fun e => e.message)).Nodup),
      runAlerts evs = lastN 100 (evs.map mkAlert) := by
    intro hnd
    have := runAlerts_lastN evs [] (by simpa using hnd)
    simpa [runAlerts, lastN] using this
  refine ⟨hfold evs [] (by simp), heqrun, ?_⟩
  intro hnd hlen
  rw [heqrun hnd]
  unfold lastN
  rw [List.length_drop, List.length_map, hlen]

/-- 150 `_add_alert` calls with pairwise-distinct messages. -/
def manyEvents : List AlertEvent :=
  (List.range 150).map (fun i => ⟨i, "warning", toString i⟩)

/-- Witness for C8: the 150 distinct insertions leave exactly 100 entries,
equal to the last 100 insertions in order. -/
theorem c8_witness :
    (runAlerts manyEvents).length ≤ 100 ∧
    runAlerts manyEvents = lastN 100 (manyEvents.map mkAlert) ∧
    (runAlerts manyEvents).length = 100 :=
  ⟨(c8_alert_cap_fifo manyEvents).1,
   (c8_alert_cap_fifo manyEvents).2.1 (by decide),
   (c8_alert_cap_fifo manyEvents).2.2 (by decide) (by decide)⟩

/-! ## Video wall layout planner (`VideoWallLayoutManager`) -/

/-- One entry of `self.layouts`.  The Python value also carries
`aspect_ratio = h / v`, a float inspected by no claim and no other code; it
is not modelled. -/
structure WallLayout where
  horizontal : Nat
  vertical : Nat
  totalDisplays : Nat
  displayMapping : List (Nat × Nat × Nat)
  deriving DecidableEq

/-- Embedding of `VideoWallLayoutManager._create_display_mapping`: the i-th
display id (0-indexed, in the supplied iteration order, truncated to the grid
size) is mapped to `h_pos = i % h_count + 1`, `v_pos = i // h_count + 1`. -/
def createDisplayMapping (displayIds : List Nat) (hCount vCount : Nat) :
    List (Nat × Nat × Nat) :=
  ((displayIds.take (hCount * vCount)).enum).map
    (fun p => (p.2, p.1 % hCount + 1, p.1 / hCount + 1))

/-- The layout-table entry built for divisor `h` of the display count `n`:
key `"hxv"` with `v = n / h`. -/
def layoutEntry (displayIds : List Nat) (n h : Nat) : String × WallLayout :=
  (toString h ++ "x" ++ toString (n / h),
   ⟨h, n / h, n, createDisplayMapping displayIds h (n / h)⟩)

/-- Embedding of `VideoWallLayoutManager._calculate_layouts`: for every `h`
in `1..display_count` dividing the count, record the layout `"hxv"`.
The Python dict keyed by the name is modelled as the association list in
insertion order (the `h` are distinct, hence so are the keys). -/
def calculateLayouts (displayIds : List Nat) : List (String × WallLayout) :=
  let n := displayIds.length
  (List.range' 1 n).filterMap
    (fun h => if n % h = 0 then some (layoutEntry displayIds n h) else none)

/-- The `horizontal` fields of the filterMap are the kept divisors. -/
theorem filterMap_layout_horiz (displayIds : List Nat) (n : Nat) :
    ∀ l : List Nat,
      ((l.filterMap
        (fun h => if n % h = 0 then some (layoutEntry displayIds n h) else none)).map
          (fun e => e.2.horizontal)) = l.filter (fun h => decide (n % h = 0))
  | [] => rfl
  | h :: t => by
    have ih := filterMap_layout_horiz displayIds n t
    by_cases hd : n % h = 0
    · rw [List.filterMap_cons, if_pos hd, List.map_cons, ih, List.filter_cons,
        if_pos (by simp [hd])]
      rfl
    · rw [List.filterMap_cons, if_neg hd, ih, List.filter_cons,
        if_neg (by simp [hd])]

/-- The divisors kept by the `h`-loop, in order. -/
theorem calculateLayouts_horiz (displayIds : List Nat) :
    (calculateLayouts displayIds).map (fun e => e.2.horizontal) =
      (List.range' 1 displayIds.length).filter
        (fun h => decide (displayIds.length % h = 0)) :=
  filterMap_layout_horiz displayIds displayIds.length (List.range' 1 displayIds.length)

/-- Membership in `calculateLayouts` comes from a divisor of the count. -/
theorem calculateLayouts_mem (displayIds : List Nat) (e : String × WallLayout)
    (he : e ∈ calculateLayouts displayIds) :
    ∃ h, 1 ≤ h ∧ h ≤ displayIds.length ∧ displayIds.length % h = 0 ∧
      e = layoutEntry displayIds displayIds.length h := by
  unfold calculateLayouts at he
  rw [List.mem_filterMap] at he
  obtain ⟨h, hmem, heq⟩ := he
  rw [List.mem_range'] at hmem
  refine ⟨h, by omega, by omega, ?_, ?_⟩
  · by_contra hne
    rw [if_neg hne] at heq
    exact Option.noConfusion heq
  · by_cases hd : displayIds.length % h = 0
    · rw [if_pos hd] at heq
      exact (Option.some.inj heq).symm
    · rw [if_neg hd] at heq
      exact absurd heq (Option.noConfusion)

/-- Claim C9: the planner produces exactly one layout `"hxv"` for every
divisor `h` of the device count `N` (with `v = N / h`), each satisfying
`horizontal * vertical = totalDevices = N`; positions are assigned row-major
over the supplied iteration order, the i-th device (0-indexed) receiving
`hPosition = i % h + 1`, `vPosition = i / h + 1`; for four devices the
layouts are exactly `1x4`, `2x2`, `4x1`, and `2x2` places them at
`(1,1), (2,1), (1,2), (2,2)`. -/
theorem c9_layouts (displayIds : List Nat) :
    ((calculateLayouts displayIds).map (fun e => e.2.horizontal)).Nodup ∧
    (∀ h : Nat, h ∈ (calculateLayouts displayIds).map (fun e => e.2.horizontal) ↔
      (1 ≤ h ∧ h ≤ displayIds.length ∧ displayIds.length % h = 0)) ∧
    (∀ e ∈ calculateLayouts displayIds,
      e.2.horizontal * e.2.vertical = displayIds.length ∧
      e.2.vertical = displayIds.length / e.2.horizontal ∧
      e.2.totalDisplays = displayIds.length ∧
      e.1 = toString e.2.horizontal ++ "x" ++ toString e.2.vertical ∧
      e.2.displayMapping =
        createDisplayMapping displayIds e.2.horizontal e.2.vertical) ∧
    (∀ hCount vCount i d : Nat, displayIds.get? i = some d → i < hCount * vCount →
      (createDisplayMapping displayIds hCount vCount).get? i =
        some (d, i % hCount + 1, i / hCount + 1)) ∧
    ((calculateLayouts [10, 20, 30, 40]).map (fun e => e.1) =
      ["1x4", "2x2", "4x1"] ∧
     (calculateLayouts [10, 20, 30, 40]).get? 1 =
      some ("2x2", ⟨2, 2, 4, [(10, 1, 1), (20, 2, 1), (30, 1, 2), (40, 2, 2)]⟩)) := by
  refine ⟨?_, ?_, ?_, ?_, by decide, by decide⟩
  · rw [calculateLayouts_horiz]
    exact List.Nodup.filter _ (List.nodup_range' 1 displayIds.length)
  · intro h
    rw [calculateLayouts_horiz, List.mem_filter, List.mem_range'_1]
    simp only [decide_eq_true_eq]
    constructor
    · rintro ⟨⟨h1, h2⟩, h3⟩
      exact ⟨h1, by omega, h3⟩
    · rintro ⟨h1, h2, h3⟩
      exact ⟨⟨h1, by omega⟩, h3⟩
  · intro e he
    obtain ⟨h, h1, h2, hdvd, rfl⟩ := calculateLayouts_mem displayIds e he
    have hmul : h * (displayIds.length / h) = displayIds.length :=
      Nat.mul_div_cancel' (Nat.dvd_of_mod_eq_zero hdvd)
    exact ⟨hmul, rfl, rfl, rfl, rfl⟩
  · intro hCount vCount i d hget hlt
    unfold createDisplayMapping
    rw [List.get?_map, List.get?_enum, List.get?_take hlt, hget]
    rfl

/-- Witness for C9 at the four-device fleet `[10, 20, 30, 40]`. -/
theorem c9_witness :
    (2 ∈ (calculateLayouts [10, 20, 30, 40]).map (fun e => e.2.horizontal)) ∧
    (createDisplayMapping [10, 20, 30, 40] 2 2).get? 3 = some (40, 2, 2) ∧
    (calculateLayouts [10, 20, 30, 40]).map (fun e => e.1) =
      ["1x4", "2x2", "4x1"] :=
  ⟨((c9_layouts [10, 20, 30, 40]).2.1 2).2 (by decide),
   (c9_layouts [10, 20, 30, 40]).2.2.2.1 2 2 3 40 (by decide) (by decide),
   (c9_layouts [10, 20, 30, 40]).2.2.2.2.1⟩

end SamsungMDC
